import Mathlib

set_option maxRecDepth 100000

/-!
Shallow embedding of the MR72 radar bridge scripts
(mr72_mavlink.py, mr72_mavlink_minimal.py, mr72.py) and proofs about the
claims of the specification.  Bytes are modelled as natural numbers, byte
strings as lists of naturals, and Python dictionaries keyed by sector name
as association lists in insertion order.
-/

/-- Protocol constant from MR72Radar: the two byte magic header 0x54 0x48. -/
def HEADER : List Nat := [84, 72]

/-- Protocol constant from MR72Radar: total frame length including CRC. -/
def FRAME_LENGTH : Nat := 19

/-- Sector table from MR72Radar.SECTORS: name and msb byte offset, in the
insertion order of the Python dictionary. -/
def SECTORS : List (String × Nat) :=
  [("sector1", 16), ("sector2", 2), ("sector3", 4), ("obstacle_90", 6),
   ("obstacle_135", 8), ("obstacle_180", 10), ("obstacle_225", 12),
   ("obstacle_270", 14)]

/-- One bit round of MR72Radar.crc8_calc: shift left, xor 0x31 when the top
bit was set, and mask to a byte. -/
def crc8_round (crc : Nat) : Nat :=
  if crc &&& 0x80 ≠ 0 then ((crc <<< 1) ^^^ 0x31) &&& 0xFF
  else (crc <<< 1) &&& 0xFF

/-- Eight bit rounds, the inner for-range-8 loop of crc8_calc. -/
def crc8_bits : Nat → Nat → Nat
  | 0, crc => crc
  | n + 1, crc => crc8_bits n (crc8_round crc)

/-- Per byte step of crc8_calc: xor the byte in, then run eight bit rounds. -/
def crc8_update (crc b : Nat) : Nat := crc8_bits 8 (crc ^^^ b)

/-- MR72Radar.crc8_calc: fold over all bytes except the trailing CRC byte
(Python iterates data with the last element sliced off), starting from 0. -/
def crc8_calc (data : List Nat) : Nat := data.dropLast.foldl crc8_update 0

/-- MR72Radar.parse_sector_distance: guard the two byte indices against the
frame length, read big-endian msb and lsb, and map 0xFFFF to none.  The
byte accesses are in bounds by construction, witnessed by the guard. -/
def parse_sector_distance (frame : List Nat) (msb_index lsb_index : Nat) :
    Option Nat :=
  if h : frame.length < max msb_index lsb_index + 1 then none
  else
    let hle := Nat.le_of_not_lt h
    let msb := frame.get ⟨msb_index,
      Nat.lt_of_lt_of_le (Nat.lt_succ_of_le (Nat.le_max_left msb_index lsb_index)) hle⟩
    let lsb := frame.get ⟨lsb_index,
      Nat.lt_of_lt_of_le (Nat.lt_succ_of_le (Nat.le_max_right msb_index lsb_index)) hle⟩
    let distance := (msb <<< 8) ||| lsb
    if distance = 0xFFFF then none else some distance

/-- MR72Radar.parse_frame: reject a frame of wrong length, then a frame with
a bad header, then a CRC mismatch (frame[-1] is the byte at index 18 once
the length check passed), and otherwise parse every sector of SECTORS. -/
def parse_frame (frame : List Nat) : Option (List (String × Option Nat)) :=
  if frame.length ≠ FRAME_LENGTH then none
  else if frame.take 2 ≠ HEADER then none
  else if crc8_calc frame ≠ frame.getD 18 0 then none
  else some (SECTORS.map fun s => (s.1, parse_sector_distance frame s.2 (s.2 + 1)))

/-- Inner helper of mr72.py parse_sectors: big-endian pair, 0xFFFF to none. -/
def parse_distance (msb lsb : Nat) : Option Nat :=
  let val := (msb <<< 8) ||| lsb
  if val = 0xFFFF then none else some val

/-- mr72.py parse_sectors: reads sectors 1, 2, 3 from the fixed offsets of a
19 byte frame that the caller has already validated (indexing is modelled
with getD, matching the source comment that the frame is 19 bytes). -/
def parse_sectors (frame : List Nat) : Option Nat × Option Nat × Option Nat :=
  (parse_distance (frame.getD 16 0) (frame.getD 17 0),
   parse_distance (frame.getD 2 0) (frame.getD 3 0),
   parse_distance (frame.getD 4 0) (frame.getD 5 0))

/-- mr72_mavlink_minimal.py parse_sector: returns 0 on a wrong length or a
bad header, the big-endian value when it is not 0xFFFF, and the fallback
10000 (ten metres) when the raw value is 0xFFFF. -/
def parse_sector (frame : List Nat) (msb_index lsb_index : Nat) : Nat :=
  if frame.length ≠ 19 then 0
  else if frame.getD 0 0 ≠ 84 ∨ frame.getD 1 0 ≠ 72 then 0
  else
    let val := (frame.getD msb_index 0 <<< 8) ||| frame.getD lsb_index 0
    if val ≠ 0xFFFF then val else 10000

/-- mr72_mavlink_minimal.py to_cm: clamp val // 10 into [0, 65535]. -/
def to_cm (val : Nat) : Nat := min 65535 (max 0 (val / 10))

/-- MAVLinkSender.send_distance_sensor, reduced to its observable payload:
none models the early return (no message) taken when distance_cm is None or
not positive; otherwise the triple (min_distance, max_distance,
current_distance) = (0, 10000, distance_cm) packed into the message. -/
def send_distance_sensor (distance_cm : Option Int) :
    Option (Int × Int × Int) :=
  match distance_cm with
  | none => none
  | some d => if d ≤ 0 then none else some (0, 10000, d)

/-- Python bytes.find for the two byte header: index of the first pair
(0x54, 0x48), none when absent. -/
def findHeader : List Nat → Option Nat
  | a :: b :: rest =>
      if a = 84 ∧ b = 72 then some 0
      else (findHeader (b :: rest)).map (fun i => i + 1)
  | _ => none

/-- One iteration of the frame scanning loop in MR72Radar.read_frames:
wait when fewer than FRAME_LENGTH bytes are buffered; drop the buffer when
no header is found; trim to the header and wait when the trailing bytes are
short; otherwise emit the 19 byte slice and advance past it. -/
def syncStep (buf : List Nat) : Option (List Nat) × List Nat :=
  if buf.length < FRAME_LENGTH then (none, buf)
  else
    match findHeader buf with
    | none => (none, [])
    | some p =>
      let b := buf.drop p
      if b.length < FRAME_LENGTH then (none, b)
      else (some (b.take FRAME_LENGTH), b.drop FRAME_LENGTH)

/-- Fuelled form of the while-loop of MR72Radar.read_frames over one buffer:
collect the emitted candidate frames and the retained buffer.  Every
iteration that recurses consumes at least FRAME_LENGTH bytes, so fuel equal
to the buffer length is never exhausted. -/
def processBufferAux : Nat → List Nat → List (List Nat) × List Nat
  | 0, buf => ([], buf)
  | fuel + 1, buf =>
    if buf.length < FRAME_LENGTH then ([], buf)
    else
      match findHeader buf with
      | none => ([], [])
      | some p =>
        let b := buf.drop p
        if b.length < FRAME_LENGTH then ([], b)
        else
          let out := processBufferAux fuel (b.drop FRAME_LENGTH)
          (b.take FRAME_LENGTH :: out.1, out.2)

/-- The scanning loop of MR72Radar.read_frames applied to a buffer. -/
def processBuffer (buf : List Nat) : List (List Nat) × List Nat :=
  processBufferAux buf.length buf

/-- The read_frames loop including the parse step: candidates that
parse_frame rejects are discarded, parsed frames are collected. -/
def readLoop (buf : List Nat) :
    List (List (String × Option Nat)) × List Nat :=
  ((processBuffer buf).1.filterMap parse_frame, (processBuffer buf).2)

/-- Loop following the claim wording instead of the source: after a frame is
rejected by parse_frame, scanning resumes from the next byte after the
rejected frame start (drop 1) rather than past the whole frame. -/
def readLoopNextByteAux : Nat → List Nat →
    List (List (String × Option Nat)) × List Nat
  | 0, buf => ([], buf)
  | fuel + 1, buf =>
    if buf.length < FRAME_LENGTH then ([], buf)
    else
      match findHeader buf with
      | none => ([], [])
      | some p =>
        let b := buf.drop p
        if b.length < FRAME_LENGTH then ([], b)
        else
          match parse_frame (b.take FRAME_LENGTH) with
          | some d =>
            let out := readLoopNextByteAux fuel (b.drop FRAME_LENGTH)
            (d :: out.1, out.2)
          | none => readLoopNextByteAux fuel (b.drop 1)

/-- The claim-worded loop applied to a buffer. -/
def readLoopNextByte (buf : List Nat) :
    List (List (String × Option Nat)) × List Nat :=
  readLoopNextByteAux buf.length buf

/-- MR72MAVLinkBridge.bridge_loop, reduced to the three sector reports it
derives from one parsed frame: for each of sector1, sector2, sector3, when
the sector is present and not None, the sent distance is the millimetre
value integer-divided by 10. -/
def bridge_outputs (data : List (String × Option Nat)) :
    Option Nat × Option Nat × Option Nat :=
  ((data.lookup ("sector1")).join.map (fun v => v / 10),
   (data.lookup ("sector2")).join.map (fun v => v / 10),
   (data.lookup ("sector3")).join.map (fun v => v / 10))

/-- Concrete 19 byte frame with a correct header and an all-zero payload;
its trailing byte 0 differs from its CRC8 value 241, so parse_frame
rejects it. -/
def badCrcFrame : List Nat := 84 :: 72 :: List.replicate 16 0 ++ [0]

/-- Payload bytes of the end-to-end scenario frame of the specification:
sector2 = 1000 mm, sector3 = 2000 mm, the five obstacle sectors 1500, 2500,
3000, 3500, 4000 mm, and sector1 = 500 mm, each big-endian. -/
def e2ePayload : List Nat :=
  [3, 232, 7, 208, 5, 220, 9, 196, 11, 184, 13, 172, 15, 160, 1, 244]

/-- The end-to-end scenario frame with its correct CRC8 byte 233. -/
def e2eGood : List Nat := 84 :: 72 :: e2ePayload ++ [233]

/-- The end-to-end scenario frame with a wrong trailing checksum byte. -/
def e2eBad : List Nat := 84 :: 72 :: e2ePayload ++ [0]

/-- Concrete frame with a correct header whose first sector pair is 0xFFFF. -/
def ffFrame : List Nat := 84 :: 72 :: 255 :: 255 :: List.replicate 15 0

/-- Buffer holding ten garbage bytes followed by a header and only seven
further bytes: the header is found at offset 10 but fewer than 19 bytes
remain from it. -/
def shortTailBuf : List Nat :=
  List.replicate 10 0 ++ 84 :: 72 :: List.replicate 7 0

/-- A found header position leaves at least two bytes from that offset. -/
theorem findHeader_le (l : List Nat) :
    ∀ p, findHeader l = some p → p + 2 ≤ l.length := by
  induction l with
  | nil => intro p h; simp [findHeader] at h
  | cons a t ih =>
    intro p h
    cases t with
    | nil => simp [findHeader] at h
    | cons b r =>
      by_cases hab : a = 84 ∧ b = 72
      · simp [findHeader, hab] at h
        simp [List.length_cons]
        omega
      · simp [findHeader, hab, Option.map_eq_some'] at h
        obtain ⟨q, hq, hqp⟩ := h
        have := ih q hq
        simp [List.length_cons] at this ⊢
        omega

/-- Appending a frame that starts with the header after header-free bytes
puts the first header occurrence exactly at the boundary. -/
theorem findHeader_append (g tail : List Nat) (hg : findHeader g = none) :
    findHeader (g ++ 84 :: 72 :: tail) = some g.length := by
  induction g with
  | nil => simp [findHeader]
  | cons a t ih =>
    cases t with
    | nil => simp [findHeader]
    | cons b r =>
      by_cases hab : a = 84 ∧ b = 72
      · simp [findHeader, hab] at hg
      · simp only [findHeader, if_neg hab, Option.map_eq_none'] at hg
        have ih' := ih hg
        simp only [List.cons_append] at ih' ⊢
        rw [findHeader, if_neg hab, ih']
        simp [List.length_cons]

/-- The scanning loop on an empty buffer does nothing, for any fuel. -/
theorem processBufferAux_nil :
    ∀ fuel, processBufferAux fuel [] = ([], []) := by
  intro fuel
  cases fuel with
  | zero => rfl
  | succ n => simp [processBufferAux, FRAME_LENGTH]

/-- Any fuel at least the buffer length gives the same scanning result. -/
theorem processBufferAux_fuel :
    ∀ f1 f2 buf, buf.length ≤ f1 → buf.length ≤ f2 →
      processBufferAux f1 buf = processBufferAux f2 buf := by
  intro f1
  induction f1 with
  | zero =>
    intro f2 buf h1 h2
    have hb : buf = [] := List.eq_nil_of_length_eq_zero (Nat.le_zero.mp h1)
    subst hb
    rw [processBufferAux_nil, processBufferAux_nil]
  | succ a ih =>
    intro f2 buf h1 h2
    cases f2 with
    | zero =>
      have hb : buf = [] := List.eq_nil_of_length_eq_zero (Nat.le_zero.mp h2)
      subst hb
      rw [processBufferAux_nil, processBufferAux_nil]
    | succ c =>
      by_cases hlen : buf.length < FRAME_LENGTH
      · simp [processBufferAux, hlen]
      · cases hf : findHeader buf with
        | none => simp [processBufferAux, hlen, hf]
        | some p =>
          by_cases hb : buf.length - p < FRAME_LENGTH
          · simp [processBufferAux, hlen, hf, hb]
          · have hF : FRAME_LENGTH = 19 := rfl
            have hr1 : (buf.drop (p + FRAME_LENGTH)).length ≤ a := by
              simp [List.length_drop]; omega
            have hr2 : (buf.drop (p + FRAME_LENGTH)).length ≤ c := by
              simp [List.length_drop]; omega
            simp [processBufferAux, hlen, hf, hb, ih c _ hr1 hr2]

/-- When the header is found with a full frame after it, the loop emits the
19 byte slice and continues on the bytes past it. -/
theorem processBuffer_emit (buf : List Nat) (p : Nat)
    (hh : findHeader buf = some p) (hl : p + FRAME_LENGTH ≤ buf.length) :
    processBuffer buf =
      ((buf.drop p).take FRAME_LENGTH ::
        (processBuffer ((buf.drop p).drop FRAME_LENGTH)).1,
       (processBuffer ((buf.drop p).drop FRAME_LENGTH)).2) := by
  have hF : FRAME_LENGTH = 19 := rfl
  have hlen : ¬ buf.length < FRAME_LENGTH := by omega
  have hb : ¬ buf.length - p < FRAME_LENGTH := by omega
  obtain ⟨n, hn⟩ : ∃ n, buf.length = n + 1 := ⟨buf.length - 1, by omega⟩
  have hfuel : processBufferAux n (buf.drop (p + FRAME_LENGTH))
      = processBufferAux ((buf.drop (p + FRAME_LENGTH)).length)
          (buf.drop (p + FRAME_LENGTH)) :=
    processBufferAux_fuel n _ _ (by simp [List.length_drop]; omega) le_rfl
  conv_lhs => rw [processBuffer, hn]
  simp [processBuffer, processBufferAux, hlen, hh, hb, hfuel, List.length_drop]

/-- A some result of parse_sector_distance is the big-endian byte pair and
is never the sentinel 65535. -/
theorem parse_sector_distance_spec (frame : List Nat) (m l v : Nat)
    (h : parse_sector_distance frame m l = some v) :
    v = (frame.getD m 0 <<< 8) ||| frame.getD l 0 ∧ v ≠ 65535 := by
  simp only [parse_sector_distance] at h
  split at h
  · simp at h
  · rename_i hlen
    split at h
    · simp at h
    · rename_i hne
      have hm : m < frame.length := by omega
      have hl' : l < frame.length := by omega
      rw [Option.some.injEq] at h
      subst h
      refine ⟨?_, hne⟩
      rw [List.getD_eq_getElem _ _ hm, List.getD_eq_getElem _ _ hl']
      simp [List.get_eq_getElem]

/-- A byte pair that reads 0xFFFF is mapped to none when the indices are in
bounds. -/
theorem parse_sector_distance_ffff (frame : List Nat) (m l : Nat)
    (hlen : max m l + 1 ≤ frame.length)
    (hff : (frame.getD m 0 <<< 8) ||| frame.getD l 0 = 65535) :
    parse_sector_distance frame m l = none := by
  have hm : m < frame.length := by omega
  have hl' : l < frame.length := by omega
  simp only [parse_sector_distance]
  rw [dif_neg (by omega)]
  rw [List.getD_eq_getElem _ _ hm, List.getD_eq_getElem _ _ hl'] at hff
  simp [List.get_eq_getElem, hff]

/-- Claim C1, counterexample: a 19 byte frame whose first two bytes equal
the magic header but whose trailing byte is not its CRC8 value makes
parse_frame return none, so it does not produce 8 sector values. -/
theorem c1_counterexample :
    parse_frame badCrcFrame = none ∧ badCrcFrame.length = 19 ∧
      badCrcFrame.take 2 = HEADER := by decide

/-- Claim C1 (amended with a valid-checksum hypothesis): for every 19 byte
frame with the magic header whose trailing byte equals its CRC8 value,
parse_frame returns the sector table mapped over the frame, which has
exactly 8 entries, and every accepted sector value is the big-endian
16 bit interpretation of its byte pair. -/
theorem c1_theorem (frame : List Nat) (h1 : frame.length = 19)
    (h2 : frame.take 2 = HEADER) (h3 : crc8_calc frame = frame.getD 18 0) :
    parse_frame frame
        = some (SECTORS.map fun s => (s.1, parse_sector_distance frame s.2 (s.2 + 1)))
      ∧ (SECTORS.map fun s => (s.1, parse_sector_distance frame s.2 (s.2 + 1))).length = 8
      ∧ ∀ m l v, parse_sector_distance frame m l = some v →
          v = (frame.getD m 0 <<< 8) ||| frame.getD l 0 := by
  refine ⟨?_, ?_, ?_⟩
  · simp [parse_frame, FRAME_LENGTH, h1, h2, h3]
  · simp [SECTORS]
  · intro m l v h
    exact (parse_sector_distance_spec frame m l v h).1

/-- Claim C1, witness: the amended theorem applied to the concrete
end-to-end frame with its correct checksum byte. -/
theorem c1_witness :
    parse_frame e2eGood
      = some (SECTORS.map fun s => (s.1, parse_sector_distance e2eGood s.2 (s.2 + 1))) :=
  (c1_theorem e2eGood (by decide) (by decide) (by decide)).1

/-- Claim C2, counterexample: in the minimal bridge decoding path, a sector
pair reading 0xFFFF yields the fallback 10000, not the no-reading
sentinel. -/
theorem c2_counterexample : parse_sector ffFrame 2 3 = 10000 := by decide

/-- Claim C2 (amended): a raw 0xFFFF pair decodes to none in
parse_sector_distance and parse_distance, and to the fallback 10000 in the
minimal bridge parse_sector; no decoding path ever reports the numeric
distance 65535. -/
theorem c2_theorem :
    (∀ (frame : List Nat) (m l v : Nat),
        parse_sector_distance frame m l = some v → v ≠ 65535)
  ∧ (∀ (frame : List Nat) (m l : Nat), max m l + 1 ≤ frame.length →
        (frame.getD m 0 <<< 8) ||| frame.getD l 0 = 65535 →
        parse_sector_distance frame m l = none)
  ∧ (∀ msb lsb v : Nat, parse_distance msb lsb = some v → v ≠ 65535)
  ∧ (∀ msb lsb : Nat, (msb <<< 8) ||| lsb = 65535 → parse_distance msb lsb = none)
  ∧ (∀ (frame : List Nat) (m l : Nat), parse_sector frame m l ≠ 65535) := by
  refine ⟨?_, ?_, ?_, ?_, ?_⟩
  · intro frame m l v h
    exact (parse_sector_distance_spec frame m l v h).2
  · intro frame m l hlen hff
    exact parse_sector_distance_ffff frame m l hlen hff
  · intro msb lsb v h
    simp only [parse_distance] at h
    split at h
    · simp at h
    · rename_i hne
      rw [Option.some.injEq] at h
      omega
  · intro msb lsb h
    simp [parse_distance, h]
  · intro frame m l
    unfold parse_sector
    split
    · omega
    · split
      · omega
      · show (if (frame.getD m 0 <<< 8) ||| frame.getD l 0 ≠ 65535
              then (frame.getD m 0 <<< 8) ||| frame.getD l 0 else 10000) ≠ 65535
        by_cases hval : (frame.getD m 0 <<< 8) ||| frame.getD l 0 ≠ 65535
        · rw [if_pos hval]; exact hval
        · rw [if_neg hval]; omega

/-- Claim C2, witness: the amended theorem applied to the concrete frame
whose first sector pair is 0xFFFF. -/
theorem c2_witness :
    parse_sector_distance ffFrame 2 3 = none ∧ parse_sector ffFrame 2 3 ≠ 65535 :=
  ⟨c2_theorem.2.1 ffFrame 2 3 (by decide) (by decide),
   c2_theorem.2.2.2.2 ffFrame 2 3⟩

/-- Claim C3, counterexample: parse_frame has no checksum policy; it
rejects this well-formed frame with an incorrect trailing checksum byte,
so no setting makes parse_frame accept it. -/
theorem c3_counterexample :
    parse_frame badCrcFrame = none
  ∧ crc8_calc badCrcFrame ≠ badCrcFrame.getD 18 0
  ∧ badCrcFrame.take 2 = HEADER ∧ badCrcFrame.length = 19 := by decide

/-- Claim C3 (amended): checksum verification is not policy-driven inside
one decoder; parse_frame always rejects a CRC mismatch (strict only), while
the separate script decoder parse_sectors decodes a frame with an incorrect
trailing checksum byte into sector readings without computing a checksum. -/
theorem c3_theorem :
    (∀ frame : List Nat, frame.length = 19 →
        crc8_calc frame ≠ frame.getD 18 0 → parse_frame frame = none)
  ∧ parse_sectors badCrcFrame = (some 0, some 0, some 0) := by
  constructor
  · intro frame h1 h2
    unfold parse_frame
    rw [if_neg (by simp [FRAME_LENGTH, h1])]
    by_cases hh : frame.take 2 ≠ HEADER
    · rw [if_pos hh]
    · rw [if_neg hh, if_pos h2]
  · decide

/-- Claim C3, witness: the strict-rejection part of the amended theorem
applied to the concrete bad-checksum frame. -/
theorem c3_witness : parse_frame badCrcFrame = none :=
  c3_theorem.1 badCrcFrame (by decide) (by decide)

/-- Claim C6, counterexample: a zero distance is silently dropped (no
message is sent) instead of being clamped and sent, and an over-range
distance is transmitted unclamped above the max_distance field. -/
theorem c6_counterexample :
    send_distance_sensor (some 0) = none
  ∧ send_distance_sensor (some 20000) = some (0, 10000, 20000) := by decide

/-- Claim C6 (amended): send_distance_sensor drops None and non-positive
distances without sending, transmits positive distances unchanged with the
fixed bounds (0, 10000) and no clamping, while the minimal bridge to_cm
clamps val // 10 into [0, 65535]. -/
theorem c6_theorem :
    (∀ d : Int, d ≤ 0 → send_distance_sensor (some d) = none)
  ∧ send_distance_sensor none = none
  ∧ (∀ d : Int, 0 < d → send_distance_sensor (some d) = some (0, 10000, d))
  ∧ (∀ v : Nat, to_cm v ≤ 65535 ∧ (v / 10 ≤ 65535 → to_cm v = v / 10)) := by
  refine ⟨?_, rfl, ?_, ?_⟩
  · intro d h
    simp [send_distance_sensor, h]
  · intro d h
    have hne : ¬ d ≤ 0 := by omega
    simp [send_distance_sensor, hne]
  · intro v
    unfold to_cm
    omega

/-- Claim C6, witness: the amended theorem applied at concrete inputs. -/
theorem c6_witness :
    send_distance_sensor (some (-7)) = none
  ∧ send_distance_sensor (some 123) = some (0, 10000, 123)
  ∧ to_cm 70 = 7 := by
  refine ⟨c6_theorem.1 (-7) (by decide), c6_theorem.2.2.1 123 (by decide), ?_⟩
  have h := (c6_theorem.2.2.2 70).2 (by decide)
  simpa using h

/-- Claim C10: parse_frame rejects every input whose length is not 19
before any field access, and parse_sector_distance independently guards its
byte indices against the frame length; both are total functions, and the
embedding accesses bytes only through indices proved in bounds by the
guard. -/
theorem c10_theorem :
    (∀ frame : List Nat, frame.length ≠ 19 → parse_frame frame = none)
  ∧ (∀ (frame : List Nat) (m l : Nat), frame.length < max m l + 1 →
        parse_sector_distance frame m l = none) := by
  constructor
  · intro frame h
    simp [parse_frame, FRAME_LENGTH, h]
  · intro frame m l h
    simp [parse_sector_distance, h]

/-- Claim C10, witness: the theorem applied to a 3 byte input. -/
theorem c10_witness :
    parse_frame [84, 72, 0] = none
  ∧ parse_sector_distance [84, 72, 0] 16 17 = none :=
  ⟨c10_theorem.1 [84, 72, 0] (by decide), c10_theorem.2 [84, 72, 0] 16 17 (by decide)⟩

/-- Claim C4, counterexample: when the header is found at offset 10 of a 19
byte buffer with fewer than 19 bytes remaining from it, the retained buffer
is only the suffix from the header onward; the bytes before the header are
discarded, not retained. -/
theorem c4_counterexample :
    syncStep shortTailBuf = (none, shortTailBuf.drop 10)
  ∧ shortTailBuf.drop 10 ≠ shortTailBuf
  ∧ findHeader shortTailBuf = some 10
  ∧ shortTailBuf.length = 19 := by decide

/-- Claim C4 (amended): (1) a header found with at least FRAME_LENGTH bytes
from its offset makes the step emit the 19 byte slice and advance past it;
(2) the step empties the buffer without emitting exactly when no header is
found and at least FRAME_LENGTH bytes are buffered; (3) a header found with
fewer than FRAME_LENGTH bytes from its offset retains only the bytes from
the header onward (the preceding bytes are discarded). -/
theorem c4_theorem :
    (∀ (buf : List Nat) (p : Nat), findHeader buf = some p →
        p + FRAME_LENGTH ≤ buf.length →
        syncStep buf = (some ((buf.drop p).take FRAME_LENGTH),
                        (buf.drop p).drop FRAME_LENGTH))
  ∧ (∀ buf : List Nat,
        (syncStep buf = (none, []) ∧ buf ≠ []) ↔
          (findHeader buf = none ∧ FRAME_LENGTH ≤ buf.length))
  ∧ (∀ (buf : List Nat) (p : Nat), findHeader buf = some p →
        FRAME_LENGTH ≤ buf.length → buf.length < p + FRAME_LENGTH →
        syncStep buf = (none, buf.drop p)) := by
  have hF : FRAME_LENGTH = 19 := rfl
  refine ⟨?_, ?_, ?_⟩
  · intro buf p hh hl
    have hlen : ¬ buf.length < FRAME_LENGTH := by omega
    have hb : ¬ buf.length - p < FRAME_LENGTH := by omega
    simp [syncStep, hlen, hh, hb]
  · intro buf
    constructor
    · rintro ⟨hs, hne⟩
      by_cases hlen : buf.length < FRAME_LENGTH
      · simp [syncStep, hlen] at hs
        exact absurd hs hne
      · cases hf : findHeader buf with
        | none => exact ⟨rfl, by omega⟩
        | some p =>
          exfalso
          have h2 := findHeader_le buf p hf
          by_cases hb : buf.length - p < FRAME_LENGTH
          · simp [syncStep, hlen, hf, hb] at hs
            omega
          · simp [syncStep, hlen, hf, hb] at hs
    · rintro ⟨hf, hlen⟩
      have hne : ¬ buf.length < FRAME_LENGTH := by omega
      refine ⟨by simp [syncStep, hne, hf], ?_⟩
      intro h
      subst h
      simp at hlen
      omega
  · intro buf p hh hl hshort
    have hlen : ¬ buf.length < FRAME_LENGTH := by omega
    have hb : buf.length - p < FRAME_LENGTH := by omega
    simp [syncStep, hlen, hh, hb]

/-- Claim C4, witness: part (1) of the amended theorem applied to the
concrete end-to-end frame used as a whole buffer. -/
theorem c4_witness : syncStep e2eGood = (some e2eGood, []) := by
  have h := c4_theorem.1 e2eGood 0 (by decide) (by decide)
  rw [h]
  decide

/-- Claim C5: any run of header-free garbage bytes followed by one complete
19 byte frame beginning with the magic header makes the scanning loop emit
exactly that frame and retain nothing; this covers garbage lengths 0, 1 and
200 in particular. -/
theorem c5_theorem (g tail : List Nat) (ht : tail.length = 17)
    (hg : findHeader g = none) :
    processBuffer (g ++ 84 :: 72 :: tail) = ([84 :: 72 :: tail], []) := by
  have hF : FRAME_LENGTH = 19 := rfl
  have hfind := findHeader_append g tail hg
  have hlen : (g ++ 84 :: 72 :: tail).length = g.length + 19 := by
    simp [ht]
  have hemit := processBuffer_emit (g ++ 84 :: 72 :: tail) g.length hfind (by omega)
  have h1 : (84 :: 72 :: tail).take FRAME_LENGTH = 84 :: 72 :: tail :=
    List.take_of_length_le (by simp [ht, FRAME_LENGTH])
  have h2 : (84 :: 72 :: tail).drop FRAME_LENGTH = [] :=
    List.drop_eq_nil_of_le (by simp [ht, FRAME_LENGTH])
  rw [hemit, List.drop_left, h1, h2]
  rfl

/-- Claim C5, witness: the theorem applied with 200 header-free garbage
bytes before the concrete end-to-end frame. -/
theorem c5_witness :
    processBuffer (List.replicate 200 0 ++ 84 :: 72 :: (e2ePayload ++ [233]))
      = ([84 :: 72 :: (e2ePayload ++ [233])], []) :=
  c5_theorem (List.replicate 200 0) (e2ePayload ++ [233]) (by decide) (by decide)

/-- Claim C7, counterexample: after the candidate frame starting at offset
0 is rejected, the read loop resumes 19 bytes past the frame start (the
buffer is exhausted), not at the next byte after the frame start as the
claim-worded loop does. -/
theorem c7_counterexample :
    readLoop badCrcFrame = ([], [])
  ∧ readLoopNextByte badCrcFrame = ([], badCrcFrame.drop 1)
  ∧ badCrcFrame.drop 1 ≠ [] := by decide

/-- Claim C7 (amended): a malformed candidate is rejected by parse_frame
with none rather than an exception (the embedded loop is total), the frame
is discarded, and scanning resumes from the byte after the rejected frame
end, that is FRAME_LENGTH bytes past its start. -/
theorem c7_theorem (buf : List Nat) (hh : findHeader buf = some 0)
    (hl : FRAME_LENGTH ≤ buf.length)
    (hp : parse_frame (buf.take FRAME_LENGTH) = none) :
    readLoop buf = readLoop (buf.drop FRAME_LENGTH) := by
  have hemit := processBuffer_emit buf 0 hh (by omega)
  rw [List.drop_zero] at hemit
  unfold readLoop
  rw [hemit]
  simp [hp]

/-- Claim C7, witness: the amended theorem applied to the concrete frame
with a bad checksum filling the whole buffer. -/
theorem c7_witness :
    readLoop badCrcFrame = readLoop (badCrcFrame.drop FRAME_LENGTH) :=
  c7_theorem badCrcFrame (by decide) (by decide) (by decide)

/-- Claim C8, counterexample: the end-to-end frame with an arbitrary wrong
trailing checksum byte produces no outputs at all, because parse_frame has
no off policy and always verifies the checksum. -/
theorem c8_counterexample :
    (parse_frame e2eBad).map bridge_outputs = none := by decide

/-- Claim C8 (amended): for the end-to-end scenario frame whose trailing
byte is its correct CRC8 value, the bridge reports sector1 = 50 cm,
sector2 = 100 cm and sector3 = 200 cm. -/
theorem c8_theorem :
    (parse_frame e2eGood).map bridge_outputs
      = some (some 50, some 100, some 200) := by decide
